import Mathlib

/-!
Shallow embedding of `src/hw1/modified_blackjack_with_count.py`
(`BlackjackWithDoubleAndCountEnv`).

Modelling conventions:
* Python floats that the program produces are all small dyadic rationals
  (−2, −1, 0, 1, 1.5, 2), so rewards are modelled by `Rat` exactly.
* `np_random.choice(self.deck)` is modelled by an external stream of index
  choices `ρ : Nat → Nat`; the environment keeps a counter `rng` of how many
  draws have happened and the sampled card is `deck.get (ρ rng % deck.length)`.
  A uniform choice over the remaining multiset is exactly a choice of a
  position in the list, so every concrete behaviour of the Python code is a
  behaviour of the model for some `ρ`.
* Fallible Python operations are modelled with `Option`: a failed
  `assert`, an attribute access on `None` (hands before `reset`),
  `np_random.choice` on an empty deck, `dealer[0]` on an empty hand and a
  `plus_minus_compliance[card]` lookup outside 1..10 all yield `none`.
-/

/-- The source helper `cmp(a, b) = float(a > b) - float(a < b)` (named
`cmpFloat` here because `cmp` already exists in the library). -/
def cmpFloat (a b : Int) : Rat :=
  (if a > b then (1 : Rat) else 0) - (if a < b then (1 : Rat) else 0)

/-- The `plus_minus_compliance` dict; `none` models a `KeyError`. -/
def plusMinusCompliance (card : Nat) : Option Int :=
  match card with
  | 1 => some (-1)
  | 2 => some 1
  | 3 => some 1
  | 4 => some 1
  | 5 => some 1
  | 6 => some 1
  | 7 => some 0
  | 8 => some 0
  | 9 => some 0
  | 10 => some (-1)
  | _ => none

/-- `([i for i in range(1, 11)] + [10] * 3) * 4`: the fresh 52-card shoe. -/
def freshDeck : List Nat :=
  List.flatten (List.replicate 4 (List.range' 1 10 ++ [10, 10, 10]))

/-- The mutable fields of `BlackjackWithDoubleAndCountEnv`.  `dealer` and
`player` are `Option` because `__init__` sets them to `None`; `rng` counts the
draws made so far (the position in the random stream). -/
structure EnvState where
  dealer : Option (List Nat)
  player : Option (List Nat)
  plusMinusSum : Int
  amountLt15 : Bool
  deck : List Nat
  foldedCards : List Nat
  rng : Nat
deriving DecidableEq

/-- The state right after `__init__` (any `natural`/`sab` flags). -/
def initState : EnvState :=
  { dealer := none
    player := none
    plusMinusSum := 0
    amountLt15 := false
    deck := freshDeck
    foldedCards := []
    rng := 0 }

/-- `_usable_ace`: `1 in hand and sum(hand) + 10 <= 21`. -/
def usableAce (hand : List Nat) : Bool :=
  hand.contains 1 && decide (hand.sum + 10 ≤ 21)

/-- `_sum_hand`. -/
def sumHand (hand : List Nat) : Nat :=
  if usableAce hand then hand.sum + 10 else hand.sum

/-- `_is_bust`. -/
def isBust (hand : List Nat) : Bool :=
  decide (21 < sumHand hand)

/-- `_score`: 0 if bust else the hand total. -/
def score (hand : List Nat) : Nat :=
  if isBust hand then 0 else sumHand hand

/-- Insertion into a sorted list (for modelling Python's `sorted`). -/
def insertSorted (x : Nat) : List Nat → List Nat
  | [] => [x]
  | y :: ys => if x ≤ y then x :: y :: ys else y :: insertSorted x ys

/-- Python's `sorted` on a list of card ranks (insertion sort). -/
def sortHand : List Nat → List Nat
  | [] => []
  | x :: xs => insertSorted x (sortHand xs)

/-- `_is_natural`: `sorted(hand) == [1, 10]`. -/
def isNatural (hand : List Nat) : Bool :=
  sortHand hand == [1, 10]

/-- The observation tuple `(player total, dealer upcard, usable ace, count)`. -/
abbrev Obs := Nat × Nat × Bool × Int

/-- `_get_obs`; fails when a hand is `None` or the dealer hand is empty. -/
def getObs (s : EnvState) : Option Obs :=
  match s.player, s.dealer with
  | some p, some (d0 :: _) => some (sumHand p, d0, usableAce p, s.plusMinusSum)
  | _, _ => none

/-- The reshuffle check at the top of `_draw_card`. -/
def reshuffleIfNeeded (s : EnvState) : EnvState :=
  if s.amountLt15 then
    { s with deck := freshDeck
             foldedCards := []
             amountLt15 := false
             plusMinusSum := 0 }
  else s

/-- The sampling part of `_draw_card`: choose a position in the current deck,
remove the card, record it as folded, and set the below-15 flag if the deck
dropped under 15 cards. -/
def drawFrom (ρ : Nat → Nat) (s : EnvState) : Option (Nat × EnvState) :=
  if h : s.deck = [] then none
  else
    let card := s.deck.get ⟨ρ s.rng % s.deck.length, Nat.mod_lt _ (List.length_pos.mpr h)⟩
    some (card,
      { s with deck := s.deck.erase card
               foldedCards := s.foldedCards ++ [card]
               amountLt15 := if (s.deck.erase card).length < 15 then true else s.amountLt15
               rng := s.rng + 1 })

/-- `_draw_card`: lazy reshuffle, then sample. -/
def drawCard (ρ : Nat → Nat) (s : EnvState) : Option (Nat × EnvState) :=
  drawFrom ρ (reshuffleIfNeeded s)

/-- The dealer-completion loop of `step` (`while self._sum_hand(self.dealer) < 17`),
threading the dealer hand explicitly.  Terminates because every card whose
plus/minus lookup succeeds has rank ≥ 1, so the raw hand sum strictly grows. -/
def dealerLoop (ρ : Nat → Nat) (d : List Nat) (s : EnvState) :
    Option (List Nat × EnvState) :=
  if h : sumHand d < 17 then
    match drawCard ρ s with
    | none => none
    | some (card, s1) =>
      match hc : plusMinusCompliance card with
      | none => none
      | some w =>
        dealerLoop ρ (d ++ [card]) { s1 with plusMinusSum := s1.plusMinusSum + w }
  else some (d, s)
termination_by 17 - d.sum
decreasing_by
  have hcard : 1 ≤ card := by
    cases card with
    | zero => simp [plusMinusCompliance] at hc
    | succ n => omega
  have hsum : d.sum ≤ sumHand d := by
    unfold sumHand
    split <;> omega
  simp only [List.sum_append, List.sum_cons, List.sum_nil]
  omega

/-- The `action == 1` (hit) branch of `step`. -/
def stepHit (ρ : Nat → Nat) (s : EnvState) : Option (Obs × Rat × Bool × EnvState) :=
  match drawCard ρ s with
  | none => none
  | some (card, s1) =>
    match plusMinusCompliance card with
    | none => none
    | some w =>
      let s2 : EnvState := { s1 with plusMinusSum := s1.plusMinusSum + w }
      match s2.player with
      | none => none
      | some p =>
        let s3 : EnvState := { s2 with player := some (p ++ [card]) }
        match getObs s3 with
        | none => none
        | some obs =>
          if isBust (p ++ [card]) then some (obs, -1, true, s3)
          else some (obs, 0, false, s3)

/-- The `action == 0` (stick) branch of `step`. -/
def stepStick (natural sab : Bool) (ρ : Nat → Nat) (s : EnvState) :
    Option (Obs × Rat × Bool × EnvState) :=
  match s.dealer with
  | none => none
  | some d =>
    match dealerLoop ρ d s with
    | none => none
    | some (d', s1) =>
      let s2 : EnvState := { s1 with dealer := some d' }
      match s2.player with
      | none => none
      | some p =>
        let base : Rat := cmpFloat (score p) (score d')
        let reward : Rat :=
          if sab && isNatural p && !(isNatural d') then 1
          else if !sab && natural && isNatural p && decide (base = 1) then 3 / 2
          else base
        match getObs s2 with
        | none => none
        | some obs => some (obs, reward, true, s2)

/-- The `action == 2` (double) branch of `step`. -/
def stepDouble (natural sab : Bool) (ρ : Nat → Nat) (s : EnvState) :
    Option (Obs × Rat × Bool × EnvState) :=
  match drawCard ρ s with
  | none => none
  | some (card, s1) =>
    match plusMinusCompliance card with
    | none => none
    | some w =>
      let s2 : EnvState := { s1 with plusMinusSum := s1.plusMinusSum + w }
      match s2.player with
      | none => none
      | some p =>
        let s3 : EnvState := { s2 with player := some (p ++ [card]) }
        match s3.dealer with
        | none => none
        | some d =>
          match dealerLoop ρ d s3 with
          | none => none
          | some (d', s4) =>
            let s5 : EnvState := { s4 with dealer := some d' }
            let base : Rat := 2 * cmpFloat (score (p ++ [card])) (score d')
            let reward : Rat :=
              if sab && isNatural (p ++ [card]) && !(isNatural d') then 1
              else if !sab && natural && isNatural (p ++ [card]) && decide (base = 1) then 3 / 2
              else base
            match getObs s5 with
            | none => none
            | some obs => some (obs, reward, true, s5)

/-- `step`: the assert rejects actions outside `{0,1,2}`, then dispatch in the
source's order (`hit`, `stick`, `double`). -/
def step (natural sab : Bool) (ρ : Nat → Nat) (action : Int) (s : EnvState) :
    Option (Obs × Rat × Bool × EnvState) :=
  if action < 0 ∨ 3 ≤ action then none
  else if action = 1 then stepHit ρ s
  else if action = 0 then stepStick natural sab ρ s
  else stepDouble natural sab ρ s

/-- `reset`: reinitialize the shoe bookkeeping and the count, deal two cards
to the dealer (counting only `dealer_hand[0]`), then two cards to the player
(counting both). -/
def reset (ρ : Nat → Nat) (s : EnvState) : Option (Obs × EnvState) :=
  let s0 : EnvState :=
    { s with amountLt15 := false
             deck := freshDeck
             foldedCards := []
             plusMinusSum := 0 }
  match drawCard ρ s0 with
  | none => none
  | some (d0, s1) =>
    match drawCard ρ s1 with
    | none => none
    | some (d1, s2) =>
      match plusMinusCompliance d0 with
      | none => none
      | some w0 =>
        let s3 : EnvState :=
          { s2 with plusMinusSum := s2.plusMinusSum + w0, dealer := some [d0, d1] }
        match drawCard ρ s3 with
        | none => none
        | some (p0, s4) =>
          match drawCard ρ s4 with
          | none => none
          | some (p1, s5) =>
            match plusMinusCompliance p0 with
            | none => none
            | some w1 =>
              match plusMinusCompliance p1 with
              | none => none
              | some w2 =>
                let s6 : EnvState :=
                  { s5 with plusMinusSum := s5.plusMinusSum + w1 + w2
                            player := some [p0, p1] }
                match getObs s6 with
                | none => none
                | some obs => some (obs, s6)

/-- The shoe bookkeeping invariant that holds in every reachable state:
the below-15 flag mirrors the deck size, the deck holds between 14 and 52
cards, and every card in the deck is a real rank 1..10. -/
def DeckInv (s : EnvState) : Prop :=
  s.amountLt15 = decide (s.deck.length < 15) ∧
  14 ≤ s.deck.length ∧ s.deck.length ≤ 52 ∧
  ∀ c ∈ s.deck, 1 ≤ c ∧ c ≤ 10

instance (s : EnvState) : Decidable (DeckInv s) := by
  unfold DeckInv
  infer_instance

/-- Index stream that always picks the first card of the deck. -/
def rhoZero : Nat → Nat := fun _ => 0


/-- Fuel-bounded evaluator for `dealerLoop`, used only to compute concrete
runs by `decide`; `dealerLoopFuel_sound` links it to the model. -/
def dealerLoopFuel (ρ : Nat → Nat) : Nat → List Nat → EnvState →
    Option (List Nat × EnvState)
  | 0, _, _ => none
  | fuel + 1, d, s =>
    if sumHand d < 17 then
      match drawCard ρ s with
      | none => none
      | some (card, s1) =>
        match plusMinusCompliance card with
        | none => none
        | some w =>
          dealerLoopFuel ρ fuel (d ++ [card]) { s1 with plusMinusSum := s1.plusMinusSum + w }
    else some (d, s)

/-- Fuel-bounded evaluator for the stick branch (concrete runs only). -/
def stepStickFuel (fuel : Nat) (natural sab : Bool) (ρ : Nat → Nat) (s : EnvState) :
    Option (Obs × Rat × Bool × EnvState) :=
  match s.dealer with
  | none => none
  | some d =>
    match dealerLoopFuel ρ fuel d s with
    | none => none
    | some (d', s1) =>
      let s2 : EnvState := { s1 with dealer := some d' }
      match s2.player with
      | none => none
      | some p =>
        let base : Rat := cmpFloat (score p) (score d')
        let reward : Rat :=
          if sab && isNatural p && !(isNatural d') then 1
          else if !sab && natural && isNatural p && decide (base = 1) then 3 / 2
          else base
        match getObs s2 with
        | none => none
        | some obs => some (obs, reward, true, s2)

/-- Fuel-bounded evaluator for the double branch (concrete runs only). -/
def stepDoubleFuel (fuel : Nat) (natural sab : Bool) (ρ : Nat → Nat) (s : EnvState) :
    Option (Obs × Rat × Bool × EnvState) :=
  match drawCard ρ s with
  | none => none
  | some (card, s1) =>
    match plusMinusCompliance card with
    | none => none
    | some w =>
      let s2 : EnvState := { s1 with plusMinusSum := s1.plusMinusSum + w }
      match s2.player with
      | none => none
      | some p =>
        let s3 : EnvState := { s2 with player := some (p ++ [card]) }
        match s3.dealer with
        | none => none
        | some d =>
          match dealerLoopFuel ρ fuel d s3 with
          | none => none
          | some (d', s4) =>
            let s5 : EnvState := { s4 with dealer := some d' }
            let base : Rat := 2 * cmpFloat (score (p ++ [card])) (score d')
            let reward : Rat :=
              if sab && isNatural (p ++ [card]) && !(isNatural d') then 1
              else if !sab && natural && isNatural (p ++ [card]) && decide (base = 1) then 3 / 2
              else base
            match getObs s5 with
            | none => none
            | some obs => some (obs, reward, true, s5)

/-- Fuel-bounded evaluator for `step` (concrete runs only). -/
def stepFuel (fuel : Nat) (natural sab : Bool) (ρ : Nat → Nat) (action : Int)
    (s : EnvState) : Option (Obs × Rat × Bool × EnvState) :=
  if action < 0 ∨ 3 ≤ action then none
  else if action = 1 then stepHit ρ s
  else if action = 0 then stepStickFuel fuel natural sab ρ s
  else stepDoubleFuel fuel natural sab ρ s

/-- Index stream used for the concrete episode in the C3 analysis. -/
def rhoA : Nat → Nat := fun t => [9, 9, 0, 0].getD t 0

/-- Index stream that always picks the card at position 9 (a ten). -/
def rhoNine : Nat → Nat := fun _ => 9

/-- The concrete state reached by `reset rhoA initState`: dealer pat 20
(`[10, 10]`), player `[1, 2]` (soft 13), running count −1. -/
def c3State : EnvState :=
  { dealer := some [10, 10], player := some [1, 2], plusMinusSum := -1, amountLt15 := false,
    deck := [3, 4, 5, 6, 7, 8, 9, 10, 10, 1, 2, 3, 4, 5, 6, 7, 8, 9, 10, 10, 10, 10, 1, 2, 3,
             4, 5, 6, 7, 8, 9, 10, 10, 10, 10, 1, 2, 3, 4, 5, 6, 7, 8, 9, 10, 10, 10, 10],
    foldedCards := [10, 10, 1, 2], rng := 4 }

/-- The concrete state reached by `reset rhoZero initState`: dealer `[1, 2]`,
player `[3, 4]`, running count 1. -/
def c10ResetState : EnvState :=
  { dealer := some [1, 2], player := some [3, 4], plusMinusSum := 1, amountLt15 := false,
    deck := [5, 6, 7, 8, 9, 10, 10, 10, 10, 1, 2, 3, 4, 5, 6, 7, 8, 9, 10, 10, 10, 10, 1, 2,
             3, 4, 5, 6, 7, 8, 9, 10, 10, 10, 10, 1, 2, 3, 4, 5, 6, 7, 8, 9, 10, 10, 10, 10],
    foldedCards := [1, 2, 3, 4], rng := 4 }

/-- The concrete state reached by hitting once from a hand of 15 against a
dealer 5 upcard on a fresh shoe (the drawn card is the first ace). -/
def c10HitState : EnvState :=
  { dealer := some [5, 9], player := some [6, 9, 1], plusMinusSum := -1, amountLt15 := false,
    deck := freshDeck.erase 1, foldedCards := [1], rng := 1 }

/-- The concrete state after doubling on `[10, 9]` against dealer `[10, 7]`
with `rhoNine` (the drawn card is a ten, busting the player). -/
def c6FinState : EnvState :=
  { dealer := some [10, 7], player := some [10, 9, 10], plusMinusSum := -1,
    amountLt15 := false, deck := freshDeck.erase 10, foldedCards := [10], rng := 1 }

/-- The concrete state after doubling on the natural `[1, 10]` against dealer
`[10, 7]` with `rhoZero` (the drawn card is an ace). -/
def c9FinState : EnvState :=
  { dealer := some [10, 7], player := some [1, 10, 1], plusMinusSum := -1,
    amountLt15 := false, deck := freshDeck.erase 1, foldedCards := [1], rng := 1 }

/-- The state right after the double-down draw of the C6 episode. -/
def c6DrawState : EnvState :=
  { dealer := some [10, 7], player := some [10, 9], plusMinusSum := 0,
    amountLt15 := false, deck := freshDeck.erase 10, foldedCards := [10], rng := 1 }

/-- The state right after the double-down draw of the C9 episode. -/
def c9DrawState : EnvState :=
  { dealer := some [10, 7], player := some [1, 10], plusMinusSum := 0,
    amountLt15 := false, deck := freshDeck.erase 1, foldedCards := [1], rng := 1 }

/-! ### Basic facts about the embedded helpers -/

theorem sum_le_sumHand (d : List Nat) : d.sum ≤ sumHand d := by
  unfold sumHand
  split <;> omega

theorem freshDeck_length : freshDeck.length = 52 := by decide

theorem freshDeck_mem : ∀ c ∈ freshDeck, 1 ≤ c ∧ c ≤ 10 := by decide

theorem freshDeck_ne_nil : freshDeck ≠ [] := by decide

theorem plusMinusCompliance_total {c : Nat} (h1 : 1 ≤ c) (h2 : c ≤ 10) :
    ∃ w, plusMinusCompliance c = some w := by
  interval_cases c <;> exact ⟨_, rfl⟩

theorem plusMinusCompliance_bounds {c : Nat} {w : Int}
    (h : plusMinusCompliance c = some w) : 1 ≤ c ∧ c ≤ 10 := by
  by_contra hcon
  have : plusMinusCompliance c = none := by
    unfold plusMinusCompliance
    match c, hcon with
    | 0, _ => rfl
    | n + 11, _ => rfl
    | 1, h | 2, h | 3, h | 4, h | 5, h | 6, h | 7, h | 8, h | 9, h | 10, h =>
      exact absurd (by omega) h
  rw [this] at h
  exact Option.noConfusion h

theorem reshuffleIfNeeded_true {s : EnvState} (h : s.amountLt15 = true) :
    reshuffleIfNeeded s =
      { s with deck := freshDeck
               foldedCards := []
               amountLt15 := false
               plusMinusSum := 0 } := by
  unfold reshuffleIfNeeded
  rw [h]
  rfl

theorem reshuffleIfNeeded_false {s : EnvState} (h : s.amountLt15 = false) :
    reshuffleIfNeeded s = s := by
  unfold reshuffleIfNeeded
  rw [h]
  rfl

theorem ite_true_false_eq_decide (p : Prop) [Decidable p] :
    (if p then true else false) = decide p := by
  by_cases hp : p <;> simp [hp]

theorem drawFrom_eq_some {ρ : Nat → Nat} {s : EnvState} {c : Nat} {s' : EnvState}
    (h : drawFrom ρ s = some (c, s')) :
    s.deck ≠ [] ∧ c ∈ s.deck ∧
    s'.deck = s.deck.erase c ∧
    s'.foldedCards = s.foldedCards ++ [c] ∧
    s'.amountLt15 = (if (s.deck.erase c).length < 15 then true else s.amountLt15) ∧
    s'.player = s.player ∧ s'.dealer = s.dealer ∧
    s'.plusMinusSum = s.plusMinusSum ∧ s'.rng = s.rng + 1 := by
  unfold drawFrom at h
  split at h
  · exact Option.noConfusion h
  next hne =>
    simp only [Option.some.injEq, Prod.mk.injEq] at h
    obtain ⟨hc, hs⟩ := h
    subst hc
    subst hs
    exact ⟨hne, List.get_mem _ _ _, rfl, rfl, rfl, rfl, rfl, rfl, rfl⟩

theorem drawFrom_total {ρ : Nat → Nat} {s : EnvState} (h : s.deck ≠ []) :
    ∃ c s', drawFrom ρ s = some (c, s') := by
  unfold drawFrom
  rw [dif_neg h]
  exact ⟨_, _, rfl⟩

theorem drawCard_total {ρ : Nat → Nat} {s : EnvState}
    (h : s.amountLt15 = true ∨ s.deck ≠ []) :
    ∃ c s', drawCard ρ s = some (c, s') := by
  unfold drawCard
  cases hb : s.amountLt15 with
  | true =>
    rw [reshuffleIfNeeded_true hb]
    exact drawFrom_total freshDeck_ne_nil
  | false =>
    rw [reshuffleIfNeeded_false hb]
    apply drawFrom_total
    rcases h with h | h
    · rw [hb] at h
      exact Bool.noConfusion h
    · exact h

theorem drawCard_eq_some {ρ : Nat → Nat} {s : EnvState} {c : Nat} {s' : EnvState}
    (h : drawCard ρ s = some (c, s')) :
    c ∈ (if s.amountLt15 = true then freshDeck else s.deck) ∧
    s'.deck = (if s.amountLt15 = true then freshDeck else s.deck).erase c ∧
    s'.amountLt15 = decide (s'.deck.length < 15) ∧
    s'.foldedCards = (if s.amountLt15 = true then ([] : List Nat) else s.foldedCards) ++ [c] ∧
    s'.plusMinusSum = (if s.amountLt15 = true then 0 else s.plusMinusSum) ∧
    s'.player = s.player ∧ s'.dealer = s.dealer ∧ s'.rng = s.rng + 1 := by
  unfold drawCard at h
  cases hb : s.amountLt15 with
  | true =>
    rw [reshuffleIfNeeded_true hb] at h
    obtain ⟨hne, hmem, hdeck, hfold, hflag, hplayer, hdealer, hpms, hrng⟩ := drawFrom_eq_some h
    exact ⟨hmem, hdeck,
      by rw [hflag, hdeck]; exact ite_true_false_eq_decide _,
      hfold, hpms, hplayer, hdealer, hrng⟩
  | false =>
    rw [reshuffleIfNeeded_false hb] at h
    obtain ⟨hne, hmem, hdeck, hfold, hflag, hplayer, hdealer, hpms, hrng⟩ := drawFrom_eq_some h
    exact ⟨hmem, hdeck,
      by rw [hflag, hdeck, hb]; exact ite_true_false_eq_decide _,
      hfold, hpms, hplayer, hdealer, hrng⟩

/-! ### The shoe invariant and the dealer loop -/

theorem deckInv_set_pms {s : EnvState} {x : Int} :
    DeckInv { s with plusMinusSum := x } ↔ DeckInv s := Iff.rfl

theorem deckInv_set_dealer {s : EnvState} {d : Option (List Nat)} :
    DeckInv { s with dealer := d } ↔ DeckInv s := Iff.rfl

theorem deckInv_set_player {s : EnvState} {p : Option (List Nat)} :
    DeckInv { s with player := p } ↔ DeckInv s := Iff.rfl

theorem drawCard_inv {ρ : Nat → Nat} {s : EnvState} {c : Nat} {s' : EnvState}
    (hinv : DeckInv s) (h : drawCard ρ s = some (c, s')) :
    DeckInv s' ∧ 1 ≤ c ∧ c ≤ 10 := by
  obtain ⟨hflag, hlo, hhi, hcards⟩ := hinv
  obtain ⟨hmem, hdeck, hflag', hfold, hpms, hplayer, hdealer, hrng⟩ := drawCard_eq_some h
  cases hb : s.amountLt15 with
  | true =>
    rw [hb] at hmem hdeck
    simp only [if_true] at hmem hdeck
    have hcb := freshDeck_mem c hmem
    have hlen : s'.deck.length = 51 := by
      rw [hdeck, List.length_erase_of_mem hmem, freshDeck_length]
    refine ⟨⟨hflag', by omega, by omega, ?_⟩, hcb.1, hcb.2⟩
    intro x hx
    rw [hdeck] at hx
    exact freshDeck_mem x (List.erase_subset c freshDeck hx)
  | false =>
    rw [hb] at hmem hdeck hflag
    simp only [Bool.false_eq_true, if_false] at hmem hdeck
    have h15 : ¬ s.deck.length < 15 := by
      intro hcon
      rw [decide_eq_true hcon] at hflag
      exact Bool.noConfusion hflag
    have hlen : s'.deck.length = s.deck.length - 1 := by
      rw [hdeck, List.length_erase_of_mem hmem]
    have hcb := hcards c hmem
    refine ⟨⟨hflag', by omega, by omega, ?_⟩, hcb.1, hcb.2⟩
    intro x hx
    rw [hdeck] at hx
    exact hcards x (List.erase_subset c s.deck hx)

theorem drawCard_total_of_inv {ρ : Nat → Nat} {s : EnvState} (hinv : DeckInv s) :
    ∃ c s', drawCard ρ s = some (c, s') := by
  apply drawCard_total
  right
  intro hcon
  have := hinv.2.1
  rw [hcon] at this
  simp at this

theorem dealerLoop_of_done {ρ : Nat → Nat} {d : List Nat} {s : EnvState}
    (h : ¬ sumHand d < 17) : dealerLoop ρ d s = some (d, s) := by
  unfold dealerLoop
  rw [dif_neg h]

theorem dealerLoop_of_draw {ρ : Nat → Nat} {d : List Nat} {s : EnvState}
    {card : Nat} {s1 : EnvState} {w : Int} (h : sumHand d < 17)
    (hdraw : drawCard ρ s = some (card, s1))
    (hw : plusMinusCompliance card = some w) :
    dealerLoop ρ d s =
      dealerLoop ρ (d ++ [card]) { s1 with plusMinusSum := s1.plusMinusSum + w } := by
  conv_lhs => rw [dealerLoop]
  rw [dif_pos h, hdraw]
  split
  next hpc => exact Option.noConfusion hpc
  next card2 s2 hpc =>
    simp only [Option.some.injEq, Prod.mk.injEq] at hpc
    obtain ⟨h1, h2⟩ := hpc
    subst h1
    subst h2
    split
    next hpc2 => rw [hw] at hpc2; exact Option.noConfusion hpc2
    next w3 hpc2 =>
      rw [hw] at hpc2
      injection hpc2 with h3
      rw [h3]

theorem dealerLoop_done_inv {ρ : Nat → Nat} {d : List Nat} {s : EnvState}
    {d' : List Nat} {s' : EnvState} (hge : ¬ sumHand d < 17)
    (hloop : dealerLoop ρ d s = some (d', s')) : d' = d ∧ s' = s := by
  rw [dealerLoop_of_done hge] at hloop
  simp only [Option.some.injEq, Prod.mk.injEq] at hloop
  exact ⟨hloop.1.symm, hloop.2.symm⟩

theorem dealerLoop_post_aux (ρ : Nat → Nat) (k : Nat) :
    ∀ (d : List Nat) (s : EnvState) (d' : List Nat) (s' : EnvState),
      17 - d.sum ≤ k → dealerLoop ρ d s = some (d', s') →
      s'.player = s.player ∧ s'.dealer = s.dealer ∧ 17 ≤ sumHand d' ∧
      (∃ ext, d' = d ++ ext) ∧ (DeckInv s → DeckInv s') := by
  induction k with
  | zero =>
    intro d s d' s' hk hloop
    have hge : ¬ sumHand d < 17 := by
      have := sum_le_sumHand d
      omega
    obtain ⟨hd, hs⟩ := dealerLoop_done_inv hge hloop
    subst hd
    subst hs
    exact ⟨rfl, rfl, by omega, ⟨[], by simp⟩, fun hv => hv⟩
  | succ k ih =>
    intro d s d' s' hk hloop
    by_cases h17 : sumHand d < 17
    · unfold dealerLoop at hloop
      rw [dif_pos h17] at hloop
      split at hloop
      · exact Option.noConfusion hloop
      next card s1 hdraw =>
        split at hloop
        next hpc => exact Option.noConfusion hloop
        next w hpc =>
          have hcb := plusMinusCompliance_bounds hpc
          have hfields := drawCard_eq_some hdraw
          have hsums : d.sum < 17 := by
            have := sum_le_sumHand d
            omega
          have hrec := ih (d ++ [card]) _ d' s'
            (by rw [List.sum_append]; simp only [List.sum_cons, List.sum_nil]; omega) hloop
          refine ⟨?_, ?_, hrec.2.2.1, ?_, ?_⟩
          · rw [hrec.1]
            exact hfields.2.2.2.2.2.1
          · rw [hrec.2.1]
            exact hfields.2.2.2.2.2.2.1
          · obtain ⟨ext, hext⟩ := hrec.2.2.2.1
            exact ⟨[card] ++ ext, by rw [hext, List.append_assoc]⟩
          · intro hv
            have hinv1 := (drawCard_inv hv hdraw).1
            exact hrec.2.2.2.2 (deckInv_set_pms.mpr hinv1)
    · obtain ⟨hd, hs⟩ := dealerLoop_done_inv h17 hloop
      subst hd
      subst hs
      exact ⟨rfl, rfl, by omega, ⟨[], by simp⟩, fun hv => hv⟩

theorem dealerLoop_post {ρ : Nat → Nat} {d : List Nat} {s : EnvState}
    {d' : List Nat} {s' : EnvState} (hloop : dealerLoop ρ d s = some (d', s')) :
    s'.player = s.player ∧ s'.dealer = s.dealer ∧ 17 ≤ sumHand d' ∧
    (∃ ext, d' = d ++ ext) ∧ (DeckInv s → DeckInv s') :=
  dealerLoop_post_aux ρ (17 - d.sum) d s d' s' le_rfl hloop

theorem dealerLoop_total_aux (ρ : Nat → Nat) (k : Nat) :
    ∀ (d : List Nat) (s : EnvState), 17 - d.sum ≤ k → DeckInv s →
      ∃ d' s', dealerLoop ρ d s = some (d', s') := by
  induction k with
  | zero =>
    intro d s hk hv
    have hge : ¬ sumHand d < 17 := by
      have := sum_le_sumHand d
      omega
    exact ⟨d, s, dealerLoop_of_done hge⟩
  | succ k ih =>
    intro d s hk hv
    by_cases h17 : sumHand d < 17
    · obtain ⟨card, s1, hdraw⟩ := drawCard_total_of_inv (ρ := ρ) hv
      obtain ⟨hinv1, hc1, hc10⟩ := drawCard_inv hv hdraw
      obtain ⟨w, hw⟩ := plusMinusCompliance_total hc1 hc10
      have hsums : d.sum < 17 := by
        have := sum_le_sumHand d
        omega
      obtain ⟨d', s', hrec⟩ := ih (d ++ [card])
        { s1 with plusMinusSum := s1.plusMinusSum + w }
        (by rw [List.sum_append]; simp only [List.sum_cons, List.sum_nil]; omega)
        (deckInv_set_pms.mpr hinv1)
      exact ⟨d', s', by rw [dealerLoop_of_draw h17 hdraw hw]; exact hrec⟩
    · exact ⟨d, s, dealerLoop_of_done h17⟩

theorem dealerLoop_total {ρ : Nat → Nat} {d : List Nat} {s : EnvState}
    (hv : DeckInv s) : ∃ d' s', dealerLoop ρ d s = some (d', s') :=
  dealerLoop_total_aux ρ (17 - d.sum) d s le_rfl hv

theorem getObs_eq {s : EnvState} {p : List Nat} {d0 : Nat} {dtl : List Nat}
    (hp : s.player = some p) (hd : s.dealer = some (d0 :: dtl)) :
    getObs s = some (sumHand p, d0, usableAce p, s.plusMinusSum) := by
  unfold getObs
  rw [hp, hd]

/-! ### What `reset` does -/

theorem reset_spec (ρ : Nat → Nat) (s : EnvState) :
    ∃ d0 d1 p0 p1 w0 w1 w2 obs s',
      reset ρ s = some (obs, s') ∧
      s'.dealer = some [d0, d1] ∧
      s'.player = some [p0, p1] ∧
      plusMinusCompliance d0 = some w0 ∧
      plusMinusCompliance p0 = some w1 ∧
      plusMinusCompliance p1 = some w2 ∧
      s'.plusMinusSum = w0 + w1 + w2 ∧
      obs = (sumHand [p0, p1], d0, usableAce [p0, p1], s'.plusMinusSum) ∧
      d1 ∈ freshDeck ∧
      DeckInv s' ∧
      s'.rng = s.rng + 4 := by
  have hinv0 : DeckInv ({ s with amountLt15 := false
                                 deck := freshDeck
                                 foldedCards := []
                                 plusMinusSum := 0 } : EnvState) := by
    refine ⟨rfl, ?_, ?_, ?_⟩
    · show 14 ≤ freshDeck.length
      rw [freshDeck_length]
      omega
    · show freshDeck.length ≤ 52
      rw [freshDeck_length]
    · exact freshDeck_mem
  -- first dealer card
  obtain ⟨d0, s1, h1⟩ := drawCard_total_of_inv (ρ := ρ) hinv0
  obtain ⟨hinv1, hd0a, hd0b⟩ := drawCard_inv hinv0 h1
  have hf1 := drawCard_eq_some h1
  have hd0mem : d0 ∈ freshDeck := hf1.1
  have hs1deck : s1.deck = freshDeck.erase d0 := hf1.2.1
  have hs1len : s1.deck.length = 51 := by
    rw [hs1deck, List.length_erase_of_mem hd0mem, freshDeck_length]
  have hs1flag : s1.amountLt15 = false := by
    rw [hf1.2.2.1, hs1len]
    rfl
  have hp1 : s1.plusMinusSum = 0 := hf1.2.2.2.2.1
  have hs1dealer : s1.dealer = s.dealer := hf1.2.2.2.2.2.2.1
  have hs1rng : s1.rng = s.rng + 1 := hf1.2.2.2.2.2.2.2
  -- second dealer card (the hole card)
  obtain ⟨d1, s2, h2⟩ := drawCard_total_of_inv (ρ := ρ) hinv1
  obtain ⟨hinv2, hd1a, hd1b⟩ := drawCard_inv hinv1 h2
  have hf2 := drawCard_eq_some h2
  have hd1mem1 : d1 ∈ s1.deck := by
    have hm := hf2.1
    rw [hs1flag] at hm
    simpa using hm
  have hd1mem : d1 ∈ freshDeck := by
    have hm := hd1mem1
    rw [hs1deck] at hm
    exact List.erase_subset d0 freshDeck hm
  have hs2deck : s2.deck = s1.deck.erase d1 := by
    have h := hf2.2.1
    rw [hs1flag] at h
    simpa using h
  have hs2len : s2.deck.length = 50 := by
    rw [hs2deck, List.length_erase_of_mem hd1mem1, hs1len]
  have hs2flag : s2.amountLt15 = false := by
    rw [hf2.2.2.1, hs2len]
    rfl
  have hp2 : s2.plusMinusSum = 0 := by
    have h := hf2.2.2.2.2.1
    rw [hs1flag] at h
    simp only [Bool.false_eq_true, if_false] at h
    rw [h, hp1]
  have hs2rng : s2.rng = s.rng + 2 := by
    rw [hf2.2.2.2.2.2.2.2, hs1rng]
  obtain ⟨w0, hw0⟩ := plusMinusCompliance_total hd0a hd0b
  -- first player card
  have hinv3 : DeckInv ({ s2 with plusMinusSum := s2.plusMinusSum + w0
                                  dealer := some [d0, d1] } : EnvState) := hinv2
  obtain ⟨p0, s4, h3⟩ := drawCard_total_of_inv (ρ := ρ) hinv3
  obtain ⟨hinv4, hp0a, hp0b⟩ := drawCard_inv hinv3 h3
  have hf3 := drawCard_eq_some h3
  dsimp only at hf3
  have hp0mem : p0 ∈ s2.deck := by
    have hm := hf3.1
    rw [hs2flag] at hm
    simpa using hm
  have hs4deck : s4.deck = s2.deck.erase p0 := by
    have h := hf3.2.1
    rw [hs2flag] at h
    simpa using h
  have hs4len : s4.deck.length = 49 := by
    rw [hs4deck, List.length_erase_of_mem hp0mem, hs2len]
  have hs4flag : s4.amountLt15 = false := by
    rw [hf3.2.2.1, hs4len]
    rfl
  have hp4 : s4.plusMinusSum = w0 := by
    have h := hf3.2.2.2.2.1
    rw [hs2flag] at h
    simp only [Bool.false_eq_true, if_false] at h
    rw [h, hp2, zero_add]
  have hs4dealer : s4.dealer = some [d0, d1] := hf3.2.2.2.2.2.2.1
  have hs4rng : s4.rng = s.rng + 3 := by
    rw [hf3.2.2.2.2.2.2.2, hs2rng]
  -- second player card
  obtain ⟨p1, s5, h4⟩ := drawCard_total_of_inv (ρ := ρ) hinv4
  obtain ⟨hinv5, hp1a', hp1b'⟩ := drawCard_inv hinv4 h4
  have hf4 := drawCard_eq_some h4
  have hp5 : s5.plusMinusSum = w0 := by
    have h := hf4.2.2.2.2.1
    rw [hs4flag] at h
    simp only [Bool.false_eq_true, if_false] at h
    rw [h, hp4]
  have hs5dealer : s5.dealer = some [d0, d1] := by
    rw [hf4.2.2.2.2.2.2.1, hs4dealer]
  have hs5rng : s5.rng = s.rng + 4 := by
    rw [hf4.2.2.2.2.2.2.2, hs4rng]
  obtain ⟨w1, hw1⟩ := plusMinusCompliance_total hp0a hp0b
  obtain ⟨w2, hw2⟩ := plusMinusCompliance_total hp1a' hp1b'
  have hde6 : ({ s5 with plusMinusSum := s5.plusMinusSum + w1 + w2
                         player := some [p0, p1] } : EnvState).dealer
      = some (d0 :: [d1]) := hs5dealer
  have hobs : getObs ({ s5 with plusMinusSum := s5.plusMinusSum + w1 + w2
                                player := some [p0, p1] } : EnvState)
      = some (sumHand [p0, p1], d0, usableAce [p0, p1], s5.plusMinusSum + w1 + w2) :=
    getObs_eq rfl hde6
  refine ⟨d0, d1, p0, p1, w0, w1, w2,
    (sumHand [p0, p1], d0, usableAce [p0, p1], s5.plusMinusSum + w1 + w2),
    { s5 with plusMinusSum := s5.plusMinusSum + w1 + w2, player := some [p0, p1] },
    ?_, hs5dealer, rfl, hw0, hw1, hw2, ?_, rfl, hd1mem, hinv5, hs5rng⟩
  · simp only [reset, h1, h2, hw0, h3, h4, hw1, hw2, hobs]
  · show s5.plusMinusSum + w1 + w2 = w0 + w1 + w2
    rw [hp5]

/-! ### What the `step` branches do -/

theorem stepStick_some {natural sab : Bool} {ρ : Nat → Nat} {s : EnvState}
    {obs : Obs} {r : Rat} {dn : Bool} {s' : EnvState}
    (h : stepStick natural sab ρ s = some (obs, r, dn, s')) :
    ∃ d p d' s1,
      s.dealer = some d ∧
      s.player = some p ∧
      dealerLoop ρ d s = some (d', s1) ∧
      s' = { s1 with dealer := some d' } ∧
      dn = true ∧
      17 ≤ sumHand d' ∧
      r = (if sab && isNatural p && !(isNatural d') then (1 : Rat)
           else if !sab && natural && isNatural p
                   && decide (cmpFloat (score p) (score d') = 1) then 3 / 2
           else cmpFloat (score p) (score d')) := by
  unfold stepStick at h
  dsimp only at h
  split at h
  · exact Option.noConfusion h
  next d hd =>
    split at h
    · exact Option.noConfusion h
    next d' s1 hloop =>
      split at h
      next hpl => exact Option.noConfusion h
      next p hpl =>
        split at h
        next hob => exact Option.noConfusion h
        next o hob =>
          simp only [Option.some.injEq, Prod.mk.injEq] at h
          obtain ⟨ho, hr, hdn, hs⟩ := h
          have hpost := dealerLoop_post hloop
          refine ⟨d, p, d', s1, hd, ?_, hloop, hs.symm, hdn.symm, hpost.2.2.1, hr.symm⟩
          rw [← hpost.1]
          exact hpl

theorem stepDouble_some {natural sab : Bool} {ρ : Nat → Nat} {s : EnvState}
    {obs : Obs} {r : Rat} {dn : Bool} {s' : EnvState}
    (h : stepDouble natural sab ρ s = some (obs, r, dn, s')) :
    ∃ card w p d d' s1 s4,
      drawCard ρ s = some (card, s1) ∧
      plusMinusCompliance card = some w ∧
      s.player = some p ∧
      s.dealer = some d ∧
      dealerLoop ρ d
          { s1 with plusMinusSum := s1.plusMinusSum + w, player := some (p ++ [card]) }
        = some (d', s4) ∧
      s' = { s4 with dealer := some d' } ∧
      s'.player = some (p ++ [card]) ∧
      s'.dealer = some d' ∧
      dn = true ∧
      17 ≤ sumHand d' ∧
      r = (if sab && isNatural (p ++ [card]) && !(isNatural d') then (1 : Rat)
           else if !sab && natural && isNatural (p ++ [card])
                   && decide (2 * cmpFloat (score (p ++ [card])) (score d') = 1) then 3 / 2
           else 2 * cmpFloat (score (p ++ [card])) (score d')) := by
  unfold stepDouble at h
  dsimp only at h
  split at h
  · exact Option.noConfusion h
  next card s1 hdraw =>
    split at h
    next hpc => exact Option.noConfusion h
    next w hpc =>
      split at h
      next hpl => exact Option.noConfusion h
      next p hpl =>
        split at h
        next hde => exact Option.noConfusion h
        next d hde =>
          split at h
          · exact Option.noConfusion h
          next d' s4 hloop =>
            split at h
            next hob => exact Option.noConfusion h
            next o hob =>
              simp only [Option.some.injEq, Prod.mk.injEq] at h
              obtain ⟨ho, hr, hdn, hs⟩ := h
              have hpost := dealerLoop_post hloop
              have hfields := drawCard_eq_some hdraw
              have hsd : s.dealer = some d := by
                rw [← hfields.2.2.2.2.2.2.1]
                exact hde
              refine ⟨card, w, p, d, d', s1, s4, hdraw, hpc, ?_, hsd, hloop, hs.symm,
                ?_, ?_, hdn.symm, hpost.2.2.1, hr.symm⟩
              · rw [← hfields.2.2.2.2.2.1]
                exact hpl
              · rw [← hs]
                show s4.player = some (p ++ [card])
                rw [hpost.1]
              · rw [← hs]

theorem stepHit_some {ρ : Nat → Nat} {s : EnvState}
    {obs : Obs} {r : Rat} {dn : Bool} {s' : EnvState}
    (h : stepHit ρ s = some (obs, r, dn, s')) :
    ∃ card w s1 p,
      drawCard ρ s = some (card, s1) ∧
      plusMinusCompliance card = some w ∧
      s.player = some p ∧
      s' = { s1 with plusMinusSum := s1.plusMinusSum + w
                     player := some (p ++ [card]) } ∧
      ((isBust (p ++ [card]) = true ∧ r = -1 ∧ dn = true) ∨
       (isBust (p ++ [card]) = false ∧ r = 0 ∧ dn = false)) := by
  unfold stepHit at h
  dsimp only at h
  split at h
  · exact Option.noConfusion h
  next card s1 hdraw =>
    split at h
    next hpc => exact Option.noConfusion h
    next w hpc =>
      split at h
      next hpl => exact Option.noConfusion h
      next p hpl =>
        split at h
        next hob => exact Option.noConfusion h
        next o hob =>
          have hfields := drawCard_eq_some hdraw
          have hsplayer : s.player = some p := by
            rw [← hfields.2.2.2.2.2.1]
            exact hpl
          split at h
          next hbust =>
            simp only [Option.some.injEq, Prod.mk.injEq] at h
            obtain ⟨ho, hr, hdn, hs⟩ := h
            exact ⟨card, w, s1, p, hdraw, hpc, hsplayer, hs.symm,
              Or.inl ⟨hbust, hr.symm, hdn.symm⟩⟩
          next hbust =>
            simp only [Option.some.injEq, Prod.mk.injEq] at h
            obtain ⟨ho, hr, hdn, hs⟩ := h
            exact ⟨card, w, s1, p, hdraw, hpc, hsplayer, hs.symm,
              Or.inr ⟨by simpa using hbust, hr.symm, hdn.symm⟩⟩

theorem step_none_of_invalid {natural sab : Bool} {ρ : Nat → Nat} {action : Int}
    {s : EnvState} (h : action < 0 ∨ 3 ≤ action) :
    step natural sab ρ action s = none := by
  unfold step
  rw [if_pos h]

/-! ### Soundness of the fuel-bounded evaluators -/

theorem dealerLoopFuel_sound {ρ : Nat → Nat} {fuel : Nat} {d : List Nat}
    {s : EnvState} {out : List Nat × EnvState}
    (h : dealerLoopFuel ρ fuel d s = some out) : dealerLoop ρ d s = some out := by
  induction fuel generalizing d s with
  | zero => exact Option.noConfusion h
  | succ fuel ih =>
    unfold dealerLoopFuel at h
    split at h
    next h17 =>
      split at h
      · exact Option.noConfusion h
      next card s1 hdraw =>
        split at h
        next hpc => exact Option.noConfusion h
        next w hpc =>
          rw [dealerLoop_of_draw h17 hdraw hpc]
          exact ih h
    next h17 =>
      rw [dealerLoop_of_done h17]
      exact h

theorem stepStickFuel_sound {fuel : Nat} {natural sab : Bool} {ρ : Nat → Nat}
    {s : EnvState} {out : Obs × Rat × Bool × EnvState}
    (h : stepStickFuel fuel natural sab ρ s = some out) :
    stepStick natural sab ρ s = some out := by
  unfold stepStickFuel at h
  unfold stepStick
  dsimp only at h ⊢
  split at h
  · exact h
  next d hd =>
    split at h
    · exact Option.noConfusion h
    next d' s1 hfl =>
      rw [dealerLoopFuel_sound hfl]
      exact h

theorem stepDoubleFuel_sound {fuel : Nat} {natural sab : Bool} {ρ : Nat → Nat}
    {s : EnvState} {out : Obs × Rat × Bool × EnvState}
    (h : stepDoubleFuel fuel natural sab ρ s = some out) :
    stepDouble natural sab ρ s = some out := by
  unfold stepDoubleFuel at h
  unfold stepDouble
  dsimp only at h ⊢
  split at h
  · exact h
  next card s1 hdraw =>
    split at h
    next hpc => exact h
    next w hpc =>
      split at h
      next hpl => exact h
      next p hpl =>
        split at h
        next hde => exact h
        next d hde =>
          split at h
          · exact Option.noConfusion h
          next d' s4 hfl =>
            rw [dealerLoopFuel_sound hfl]
            exact h

theorem stepFuel_sound {fuel : Nat} {natural sab : Bool} {ρ : Nat → Nat}
    {action : Int} {s : EnvState} {out : Obs × Rat × Bool × EnvState}
    (h : stepFuel fuel natural sab ρ action s = some out) :
    step natural sab ρ action s = some out := by
  unfold stepFuel at h
  unfold step
  split at h
  · exact Option.noConfusion h
  next hval =>
    rw [if_neg hval]
    split at h
    next h1 =>
      rw [if_pos h1]
      exact h
    next h1 =>
      rw [if_neg h1]
      split at h
      next h0 =>
        rw [if_pos h0]
        exact stepStickFuel_sound h
      next h0 =>
        rw [if_neg h0]
        exact stepDoubleFuel_sound h

theorem step_none_of_uninit {natural sab : Bool} {ρ : Nat → Nat} {action : Int}
    {s : EnvState} (hp : s.player = none) (hd : s.dealer = none) :
    step natural sab ρ action s = none := by
  unfold step
  split
  · rfl
  next hval =>
    split
    · unfold stepHit
      dsimp only
      split
      · rfl
      next card s1 hdraw =>
        split
        next hpc => rfl
        next w hpc =>
          split
          next hpl => rfl
          next p hpl =>
            have hpn : s1.player = none := by
              rw [(drawCard_eq_some hdraw).2.2.2.2.2.1, hp]
            rw [hpn] at hpl
            exact Option.noConfusion hpl
    next h1 =>
      split
      · unfold stepStick
        dsimp only
        split
        · rfl
        next d hdd =>
          rw [hd] at hdd
          exact Option.noConfusion hdd
      next h0 =>
        unfold stepDouble
        dsimp only
        split
        · rfl
        next card s1 hdraw =>
          split
          next hpc => rfl
          next w hpc =>
            split
            next hpl => rfl
            next p hpl =>
              have hpn : s1.player = none := by
                rw [(drawCard_eq_some hdraw).2.2.2.2.2.1, hp]
              rw [hpn] at hpl
              exact Option.noConfusion hpl

/-! ### Remaining helper lemmas -/

theorem cmpFloat_trichotomy (a b : Int) :
    cmpFloat a b = 1 ∨ cmpFloat a b = 0 ∨ cmpFloat a b = -1 := by
  unfold cmpFloat
  rcases lt_trichotomy a b with h | h | h
  · right
    right
    rw [if_neg (by omega), if_pos h]
    norm_num
  · right
    left
    rw [if_neg (by omega), if_neg (by omega)]
    norm_num
  · left
    rw [if_pos h, if_neg (by omega)]
    norm_num

theorem cmpFloat_of_lt {a b : Int} (h : a < b) : cmpFloat a b = -1 := by
  unfold cmpFloat
  rw [if_neg (by omega), if_pos h]
  norm_num

theorem insertSorted_length (x : Nat) (l : List Nat) :
    (insertSorted x l).length = l.length + 1 := by
  induction l with
  | nil => rfl
  | cons y ys ih =>
    unfold insertSorted
    split
    · simp
    · simp [ih]

theorem sortHand_length (l : List Nat) : (sortHand l).length = l.length := by
  induction l with
  | nil => rfl
  | cons x xs ih =>
    unfold sortHand
    rw [insertSorted_length, ih]
    rfl

theorem isNatural_eq_false_of_len {l : List Nat} (h : l.length ≠ 2) :
    isNatural l = false := by
  unfold isNatural
  rw [beq_eq_false_iff_ne]
  intro heq
  apply h
  rw [← sortHand_length l, heq]
  rfl

theorem isNatural_append_false {p : List Nat} {c : Nat} (h : 2 ≤ p.length) :
    isNatural (p ++ [c]) = false := by
  apply isNatural_eq_false_of_len
  rw [List.length_append]
  simp
  omega

/-! ### Claim C1 -/

/-- C1 counterexample: the claim says the count after `reset()` equals the sum
of the plus/minus weights of all four dealt cards.  With the all-zeros index
stream the dealt cards are dealer `[1, 2]` and player `[3, 4]`; the four
weights sum to 2, yet the count after `reset` is 1 — the dealer's second
(hole) card's weight is never applied. -/
theorem c1_counterexample :
    ((reset rhoZero initState).map (fun a => (a.2.dealer, a.2.player, a.2.plusMinusSum))
      = some (some [1, 2], some [3, 4], 1)) ∧
    plusMinusCompliance 1 = some (-1) ∧
    plusMinusCompliance 2 = some 1 ∧
    plusMinusCompliance 3 = some 1 ∧
    plusMinusCompliance 4 = some 1 ∧
    (1 : Int) ≠ -1 + 1 + 1 + 1 := by
  refine ⟨by decide, rfl, rfl, rfl, rfl, by decide⟩

/-- C1 (amended): at `reset()` the running count is updated exactly once for
each of three of the dealt cards — the dealer's face-up card and the player's
two cards — but not for the dealer's hole card; immediately after `reset()`
the count equals the sum of the plus/minus weights of those three cards. -/
theorem c1_reset_count (ρ : Nat → Nat) (s : EnvState) :
    ∃ d0 d1 p0 p1 w0 w1 w2 obs s',
      reset ρ s = some (obs, s') ∧
      s'.dealer = some [d0, d1] ∧
      s'.player = some [p0, p1] ∧
      plusMinusCompliance d0 = some w0 ∧
      plusMinusCompliance p0 = some w1 ∧
      plusMinusCompliance p1 = some w2 ∧
      s'.plusMinusSum = w0 + w1 + w2 := by
  obtain ⟨d0, d1, p0, p1, w0, w1, w2, obs, s', h⟩ := reset_spec ρ s
  exact ⟨d0, d1, p0, p1, w0, w1, w2, obs, s', h.1, h.2.1, h.2.2.1, h.2.2.2.1,
    h.2.2.2.2.1, h.2.2.2.2.2.1, h.2.2.2.2.2.2.1⟩

/-! ### Claim C2 -/

/-- C2 counterexample: the claim says the count carries over unchanged across
episode resets.  Starting `reset` from states whose counts are 5 and 37, the
count after `reset` is 1 in both cases: `reset()` zeroes the count (and
rebuilds the whole shoe), so nothing carries over. -/
theorem c2_counterexample :
    ((reset rhoZero { initState with plusMinusSum := 5 }).map (fun a => a.2.plusMinusSum)
      = some 1) ∧
    ((reset rhoZero { initState with plusMinusSum := 37 }).map (fun a => a.2.plusMinusSum)
      = some 1) ∧
    (5 : Int) ≠ 37 := by
  refine ⟨by decide, by decide, by decide⟩

/-- C2 (amended): the running count is zeroed both by the shoe's reshuffle and
by every `reset()` (which rebuilds the whole shoe): the outcome of `reset` is
independent of the count the state had before, and a draw that triggers the
reshuffle leaves the count at 0. -/
theorem c2_reset_zeroes (ρ : Nat → Nat) (s : EnvState) (c : Int) :
    reset ρ { s with plusMinusSum := c } = reset ρ s ∧
    (∀ c2 s', s.amountLt15 = true → drawCard ρ s = some (c2, s') →
      s'.plusMinusSum = 0) := by
  constructor
  · rfl
  · intro c2 s' hflag hdraw
    have hf := (drawCard_eq_some hdraw).2.2.2.2.1
    rw [hf, hflag]
    rfl

/-- Witness for C2: concrete instances of both parts of `c2_reset_zeroes`. -/
theorem c2_witness :
    reset rhoZero { initState with plusMinusSum := 42 } = reset rhoZero initState ∧
    ({ initState with amountLt15 := true, plusMinusSum := 42 } : EnvState).amountLt15 = true ∧
    drawCard rhoZero { initState with amountLt15 := true, plusMinusSum := 42 }
      = some (1, { initState with deck := freshDeck.erase 1, foldedCards := [1], rng := 1 }) ∧
    ({ initState with deck := freshDeck.erase 1, foldedCards := [1], rng := 1 } : EnvState).plusMinusSum
      = 0 :=
  ⟨(c2_reset_zeroes rhoZero initState 42).1, rfl, by decide,
    (c2_reset_zeroes rhoZero { initState with amountLt15 := true, plusMinusSum := 42 } 42).2
      1 _ rfl (by decide)⟩

/-! ### Claim C3 -/

/-- C3 counterexample: the claim says `step` fails when called again after a
transition that returned `done = true`.  In the concrete episode dealt by
`rhoA` (dealer `[10, 10]`, player `[1, 2]`), `stick` ends the episode with
`done = true`, yet a further `step` with `hit` succeeds — the code silently
operates on the stale hands instead of rejecting the call. -/
theorem c3_counterexample :
    reset rhoA initState = some ((13, 10, true, -1), c3State) ∧
    step false false rhoA 0 c3State = some ((13, 10, true, -1), -1, true, c3State) ∧
    (step false false rhoA 1 c3State).isSome = true := by
  refine ⟨by decide, ?_, rfl⟩
  show stepStick false false rhoA c3State = _
  unfold stepStick
  dsimp only [c3State]
  rw [dealerLoop_of_done (show ¬ sumHand [10, 10] < 17 by decide)]
  dsimp only
  rw [show isNatural [1, 2] = false from by decide,
    show (score [1, 2] : Nat) = 13 from by decide,
    show (score [10, 10] : Nat) = 20 from by decide]
  norm_num [getObs, sumHand, usableAce, cmpFloat]

/-- C3 (amended): `step` does reject any action outside `{0, 1, 2}` and does
fail when called before any `reset` (both hands still `None`); but it keeps no
record of a finished episode, so a `step` after a `done = true` transition is
not rejected (see the counterexample). -/
theorem c3_step_failures (natural sab : Bool) (ρ : Nat → Nat) (action : Int)
    (s : EnvState) :
    ((action < 0 ∨ 3 ≤ action) → step natural sab ρ action s = none) ∧
    (s.player = none → s.dealer = none → step natural sab ρ action s = none) :=
  ⟨fun h => step_none_of_invalid h, fun hp hd => step_none_of_uninit hp hd⟩

/-- Witness for C3: action 5 is rejected, and `step` before any `reset`
(on the `__init__` state, whose hands are `None`) fails for `stick`. -/
theorem c3_witness :
    ((5 : Int) < 0 ∨ 3 ≤ (5 : Int)) ∧
    step false false rhoZero 5 initState = none ∧
    initState.player = none ∧
    initState.dealer = none ∧
    step false false rhoZero 0 initState = none :=
  ⟨Or.inr (by norm_num),
   (c3_step_failures false false rhoZero 5 initState).1 (Or.inr (by norm_num)),
   rfl, rfl,
   (c3_step_failures false false rhoZero 0 initState).2 rfl rfl⟩

/-! ### Claim C4 -/

/-- C4: the reshuffle check is lazy.  A draw from a non-flagged shoe completes
normally from the current deck (even if it leaves fewer than 15 cards, it only
sets the flag); the next draw after the flag is set first reinitializes the
shoe to the fresh 52-card composition, clears the discard set and zeroes the
running count, then draws from the fresh shoe, leaving exactly 51 cards. -/
theorem c4_lazy_reshuffle (ρ : Nat → Nat) (s : EnvState) :
    (s.amountLt15 = true →
      ∃ card s', drawCard ρ s = some (card, s') ∧
        card ∈ freshDeck ∧
        s'.deck = freshDeck.erase card ∧
        s'.deck.length = 51 ∧
        s'.foldedCards = [card] ∧
        s'.plusMinusSum = 0 ∧
        s'.amountLt15 = false) ∧
    (s.amountLt15 = false → s.deck ≠ [] →
      ∃ card s', drawCard ρ s = some (card, s') ∧
        card ∈ s.deck ∧
        s'.deck = s.deck.erase card ∧
        s'.plusMinusSum = s.plusMinusSum ∧
        s'.foldedCards = s.foldedCards ++ [card] ∧
        s'.amountLt15 = decide (s'.deck.length < 15)) := by
  constructor
  · intro hflag
    obtain ⟨card, s', hdraw⟩ := drawCard_total (Or.inl hflag)
    obtain ⟨hmem, hdeck, hflag', hfold, hpms, _, _, _⟩ := drawCard_eq_some hdraw
    rw [hflag] at hmem hdeck hfold hpms
    simp only [if_true] at hmem hdeck hfold hpms
    have hlen : s'.deck.length = 51 := by
      rw [hdeck, List.length_erase_of_mem hmem, freshDeck_length]
    refine ⟨card, s', hdraw, hmem, hdeck, hlen, by rw [hfold]; rfl, hpms, ?_⟩
    rw [hflag', hlen]
    rfl
  · intro hflag hne
    obtain ⟨card, s', hdraw⟩ := drawCard_total (Or.inr hne)
    obtain ⟨hmem, hdeck, hflag', hfold, hpms, _, _, _⟩ := drawCard_eq_some hdraw
    rw [hflag] at hmem hdeck hfold hpms
    simp only [Bool.false_eq_true, if_false] at hmem hdeck hfold hpms
    exact ⟨card, s', hdraw, hmem, hdeck, hpms, hfold, hflag'⟩

/-- Witness for C4: a flagged shoe reshuffles on the next draw; the fresh
`__init__` shoe (52 cards, flag unset) draws normally. -/
theorem c4_witness :
    ({ initState with amountLt15 := true, deck := [5], plusMinusSum := 7 } : EnvState).amountLt15
      = true ∧
    (∃ card s',
      drawCard rhoZero { initState with amountLt15 := true, deck := [5], plusMinusSum := 7 }
        = some (card, s') ∧
      card ∈ freshDeck ∧ s'.deck = freshDeck.erase card ∧ s'.deck.length = 51 ∧
      s'.foldedCards = [card] ∧ s'.plusMinusSum = 0 ∧ s'.amountLt15 = false) ∧
    initState.amountLt15 = false ∧
    initState.deck ≠ [] ∧
    (∃ card s', drawCard rhoZero initState = some (card, s') ∧
      card ∈ initState.deck ∧ s'.deck = initState.deck.erase card ∧
      s'.plusMinusSum = initState.plusMinusSum ∧
      s'.foldedCards = initState.foldedCards ++ [card] ∧
      s'.amountLt15 = decide (s'.deck.length < 15)) :=
  ⟨rfl,
   (c4_lazy_reshuffle rhoZero _).1 rfl,
   rfl,
   by decide,
   (c4_lazy_reshuffle rhoZero initState).2 rfl (by decide)⟩

/-! ### Claim C8 -/

/-- C8: the dealer-completion loop — draw one card while the dealer's total is
below 17 — never stops below a total of 17, only ever extends the dealer hand,
stands immediately on any total ≥ 17 (hard or soft, since `sumHand` already
accounts for the soft ace), and terminates with a result for every shoe state
satisfying the shoe invariant. -/
theorem c8_dealer_policy (ρ : Nat → Nat) (d : List Nat) (s : EnvState) :
    (∀ d' s', dealerLoop ρ d s = some (d', s') →
      17 ≤ sumHand d' ∧ ∃ ext, d' = d ++ ext) ∧
    (17 ≤ sumHand d → dealerLoop ρ d s = some (d, s)) ∧
    (DeckInv s → ∃ d' s', dealerLoop ρ d s = some (d', s')) := by
  refine ⟨?_, ?_, ?_⟩
  · intro d' s' h
    have hp := dealerLoop_post h
    exact ⟨hp.2.2.1, hp.2.2.2.1⟩
  · intro hge
    exact dealerLoop_of_done (by omega)
  · intro hv
    exact dealerLoop_total hv

/-- Witness for C8: a (soft-irrelevant) dealer 19 stands at once; a dealer 12
draws to completion on the fresh shoe. -/
theorem c8_witness :
    17 ≤ sumHand [10, 9] ∧
    dealerLoop rhoZero [10, 9] initState = some ([10, 9], initState) ∧
    (17 ≤ sumHand [10, 9] ∧ ∃ ext, [10, 9] = [10, 9] ++ ext) ∧
    DeckInv initState ∧
    (∃ d' s', dealerLoop rhoZero [6, 6] initState = some (d', s')) := by
  have hdone : dealerLoop rhoZero [10, 9] initState = some ([10, 9], initState) :=
    (c8_dealer_policy rhoZero [10, 9] initState).2.1 (by decide)
  exact ⟨by decide, hdone,
    (c8_dealer_policy rhoZero [10, 9] initState).1 _ _ hdone,
    by unfold DeckInv; decide,
    (c8_dealer_policy rhoZero [6, 6] initState).2.2 (by unfold DeckInv; decide)⟩

/-! ### Claim C10 -/

/-- C10: in every reachable state the shoe invariant holds — the below-15 flag
is set iff the deck has fewer than 15 cards, and the deck size stays within
[14, 52]; the invariant holds initially, is (re)established by `reset`, and is
preserved by every draw and every successful `step`.  Under the invariant a
draw always succeeds, and the deck actually sampled from (after the lazy
reshuffle) holds at least 15 cards, so a draw never sees an empty deck. -/
theorem c10_shoe_safety (ρ : Nat → Nat) (s : EnvState) :
    DeckInv initState ∧
    (∀ obs s', reset ρ s = some (obs, s') → DeckInv s') ∧
    (DeckInv s →
      (∃ c s', drawCard ρ s = some (c, s')) ∧
      (∀ c s', drawCard ρ s = some (c, s') →
        DeckInv s' ∧
        15 ≤ (if s.amountLt15 = true then freshDeck else s.deck).length)) ∧
    (∀ (natural sab : Bool) (action : Int) obs r dn s', DeckInv s →
      step natural sab ρ action s = some (obs, r, dn, s') → DeckInv s') := by
  refine ⟨by unfold DeckInv; decide, ?_, ?_, ?_⟩
  · intro obs s' h
    obtain ⟨d0, d1, p0, p1, w0, w1, w2, obs2, s2, hspec⟩ := reset_spec ρ s
    rw [hspec.1] at h
    simp only [Option.some.injEq, Prod.mk.injEq] at h
    rw [← h.2]
    exact hspec.2.2.2.2.2.2.2.2.2.1
  · intro hv
    refine ⟨drawCard_total_of_inv hv, ?_⟩
    intro c s' hdraw
    refine ⟨(drawCard_inv hv hdraw).1, ?_⟩
    cases hb : s.amountLt15 with
    | true =>
      simp only [if_true]
      rw [freshDeck_length]
      omega
    | false =>
      simp only [Bool.false_eq_true, if_false]
      have h15 : ¬ s.deck.length < 15 := by
        intro hcon
        have hfl := hv.1
        rw [hb, decide_eq_true hcon] at hfl
        exact Bool.noConfusion hfl
      omega
  · intro natural sab action obs r dn s' hv hstep
    unfold step at hstep
    split at hstep
    · exact Option.noConfusion hstep
    next hval =>
      split at hstep
      · obtain ⟨card, w, s1, p, hdraw, hpc, hp, hs', _⟩ := stepHit_some hstep
        rw [hs']
        exact (drawCard_inv hv hdraw).1
      next h1 =>
        split at hstep
        · obtain ⟨d, p, d', s1, hd, hp, hloop, hs', _, _, _⟩ := stepStick_some hstep
          rw [hs']
          exact (dealerLoop_post hloop).2.2.2.2 hv
        next h0 =>
          obtain ⟨card, w, p, d, d', s1, s4, hdraw, hpc, hp, hd, hloop, hs', _, _, _, _, _⟩ :=
            stepDouble_some hstep
          rw [hs']
          exact (dealerLoop_post hloop).2.2.2.2 (drawCard_inv hv hdraw).1

/-- Witness for C10: the invariant holds on the `__init__` state, after a
concrete `reset`, and after a concrete `hit` step. -/
theorem c10_witness :
    DeckInv initState ∧
    reset rhoZero initState = some ((7, 1, false, 1), c10ResetState) ∧
    DeckInv c10ResetState ∧
    DeckInv { initState with dealer := some [5, 9], player := some [6, 9] } ∧
    step false false rhoZero 1 { initState with dealer := some [5, 9], player := some [6, 9] }
      = some ((16, 5, false, -1), 0, false, c10HitState) ∧
    DeckInv c10HitState := by
  have hreset : reset rhoZero initState = some ((7, 1, false, 1), c10ResetState) := by decide
  have hhit : step false false rhoZero 1
      { initState with dealer := some [5, 9], player := some [6, 9] }
      = some ((16, 5, false, -1), 0, false, c10HitState) := rfl
  exact ⟨by unfold DeckInv; decide, hreset,
    (c10_shoe_safety rhoZero initState).2.1 _ _ hreset,
    by unfold DeckInv; decide, hhit,
    (c10_shoe_safety rhoZero { initState with dealer := some [5, 9], player := some [6, 9] }).2.2.2
      false false 1 _ _ _ _ (by unfold DeckInv; decide) hhit⟩

/-! ### Claim C5 -/

/-- C5: with `natural = true` and `sab = false`, the reward after `stick` is
1.5 exactly when the player's hand is a natural and the `cmp` comparison
yielded +1; and because the bonus check compares the post-multiplier reward
against exactly 1, the 1.5 bonus is unreachable through `double` (whose
rewards are −2, 0 or 2). -/
theorem c5_natural_bonus (ρ : Nat → Nat) (s : EnvState) (p : List Nat)
    (hp : s.player = some p) :
    (∀ obs r dn s' d', step true false ρ 0 s = some (obs, r, dn, s') →
      s'.dealer = some d' →
      (r = 3 / 2 ↔ (isNatural p = true ∧ cmpFloat (score p) (score d') = 1))) ∧
    (∀ obs r dn s', step true false ρ 2 s = some (obs, r, dn, s') → r ≠ 3 / 2) := by
  constructor
  · intro obs r dn s' d' hstep hd'
    have h' : stepStick true false ρ s = some (obs, r, dn, s') := hstep
    obtain ⟨d2, p2, d'', s1, hd2, hp2, hloop, hs', hdn, h17, hr⟩ := stepStick_some h'
    rw [hp] at hp2
    injection hp2 with hpp
    subst hpp
    have hdd : some d'' = some d' := by
      rw [hs'] at hd'
      exact hd'
    injection hdd with hdd
    subst hdd
    rw [hr]
    simp only [Bool.false_and, Bool.not_false, Bool.true_and, Bool.false_eq_true, if_false]
    have hval := cmpFloat_trichotomy (score p : Int) (score d'')
    by_cases hn : isNatural p = true
    · by_cases hc : cmpFloat (score p : Int) (score d'') = 1
      · rw [hn, hc]
        norm_num
      · have hcb : decide (cmpFloat (score p : Int) (score d'') = 1) = false := by
          simp [hc]
        rw [hn, hcb]
        simp only [Bool.true_and, Bool.and_false, Bool.false_eq_true, if_false]
        constructor
        · intro habs
          rcases hval with h | h | h
          · exact absurd h hc
          · rw [h] at habs
            norm_num at habs
          · rw [h] at habs
            norm_num at habs
        · intro hand
          exact absurd hand.2 hc
    · have hn' : isNatural p = false := by
        cases hb : isNatural p
        · rfl
        · exact absurd hb hn
      rw [hn']
      simp only [Bool.false_and, Bool.false_eq_true, if_false]
      constructor
      · intro habs
        rcases hval with h | h | h <;> rw [h] at habs <;> norm_num at habs
      · intro hand
        exact hand.1.elim
  · intro obs r dn s' hstep
    have h' : stepDouble true false ρ s = some (obs, r, dn, s') := hstep
    obtain ⟨card, w, p2, d, d', s1, s4, _, _, _, _, _, _, _, _, _, _, hr⟩ :=
      stepDouble_some h'
    rw [hr]
    simp only [Bool.false_and, Bool.not_false, Bool.true_and, Bool.false_eq_true, if_false]
    have h2c : decide (2 * cmpFloat (score (p2 ++ [card]) : Int) (score d') = 1) = false := by
      rcases cmpFloat_trichotomy (score (p2 ++ [card]) : Int) (score d') with h | h | h <;>
        rw [h] <;> norm_num
    rw [h2c]
    simp only [Bool.and_false, Bool.false_eq_true, if_false]
    rcases cmpFloat_trichotomy (score (p2 ++ [card]) : Int) (score d') with h | h | h <;>
      rw [h] <;> norm_num

/-- Witness for C5: a natural `[1, 10]` against dealer `[10, 9]` sticks and
earns exactly 3/2 under `natural = true`, `sab = false`. -/
theorem c5_witness :
    ({ initState with dealer := some [10, 9], player := some [1, 10] } : EnvState).player
      = some [1, 10] ∧
    step true false rhoZero 0 { initState with dealer := some [10, 9], player := some [1, 10] }
      = some ((21, 10, true, 0), 3 / 2, true,
          { initState with dealer := some [10, 9], player := some [1, 10] }) ∧
    ({ initState with dealer := some [10, 9], player := some [1, 10] } : EnvState).dealer
      = some [10, 9] ∧
    ((3 / 2 : Rat) = 3 / 2 ↔ (isNatural [1, 10] = true ∧
      cmpFloat (score [1, 10]) (score [10, 9]) = 1)) := by
  have hrun : step true false rhoZero 0
      { initState with dealer := some [10, 9], player := some [1, 10] }
      = some ((21, 10, true, 0), 3 / 2, true,
          { initState with dealer := some [10, 9], player := some [1, 10] }) := by
    show stepStick true false rhoZero
      { initState with dealer := some [10, 9], player := some [1, 10] } = _
    unfold stepStick
    dsimp only
    rw [dealerLoop_of_done (show ¬ sumHand [10, 9] < 17 by decide)]
    dsimp only
    rw [show isNatural [1, 10] = true from by decide,
      show isNatural [10, 9] = false from by decide,
      show (score [1, 10] : Nat) = 21 from by decide,
      show (score [10, 9] : Nat) = 19 from by decide]
    norm_num [getObs, sumHand, usableAce, cmpFloat, initState]
  exact ⟨rfl, hrun, rfl,
    (c5_natural_bonus rhoZero _ [1, 10] rfl).1 _ _ _ _ [10, 9] hrun rfl⟩

/-! ### Claim C6 -/

/-- C6: on `double` with the default flags, exactly one card is drawn to the
player regardless of bust, the dealer then plays to completion, the episode
ends, and the reward is `2 × cmp(score(player), score(dealer))` with a busted
hand scoring 0; in particular a player bust against a non-busted dealer gives
exactly −2, not a flat −1. -/
theorem c6_double_reward (ρ : Nat → Nat) (s : EnvState) (p : List Nat)
    (hp : s.player = some p) (obs : Obs) (r : Rat) (dn : Bool) (s' : EnvState)
    (hstep : step false false ρ 2 s = some (obs, r, dn, s')) :
    ∃ c d', s'.player = some (p ++ [c]) ∧ s'.dealer = some d' ∧ dn = true ∧
      r = 2 * cmpFloat (score (p ++ [c])) (score d') ∧
      (isBust (p ++ [c]) = true → isBust d' = false → r = -2) := by
  have h' : stepDouble false false ρ s = some (obs, r, dn, s') := hstep
  obtain ⟨card, w, p2, d, d', s1, s4, hdraw, hpc, hp2, hd, hloop, hs', hpl', hde', hdn, h17, hr⟩ :=
    stepDouble_some h'
  rw [hp] at hp2
  injection hp2 with hpp
  subst hpp
  have hrr : r = 2 * cmpFloat (score (p ++ [card]) : Int) (score d') := by
    rw [hr]
    simp only [Bool.false_and, Bool.not_false, Bool.true_and, Bool.and_false,
      Bool.false_eq_true, if_false]
  refine ⟨card, d', hpl', hde', hdn, hrr, ?_⟩
  intro hbp hbd
  have hsp : score (p ++ [card]) = 0 := by
    unfold score
    rw [hbp]
    rfl
  have hsd : score d' = sumHand d' := by
    unfold score
    rw [hbd]
    rfl
  rw [hrr, hsp, hsd]
  rw [cmpFloat_of_lt (show ((0 : Nat) : Int) < (sumHand d' : Int) by exact_mod_cast by omega)]
  norm_num

/-- Witness for C6: doubling on a hard 19 against dealer 17 draws a ten,
busting the player; the dealer stands and the reward is exactly −2. -/
theorem c6_witness :
    ({ initState with dealer := some [10, 7], player := some [10, 9] } : EnvState).player
      = some [10, 9] ∧
    step false false rhoNine 2 { initState with dealer := some [10, 7], player := some [10, 9] }
      = some ((29, 10, false, -1), -2, true, c6FinState) ∧
    (∃ c d', c6FinState.player = some ([10, 9] ++ [c]) ∧ c6FinState.dealer = some d' ∧
      (true : Bool) = true ∧
      (-2 : Rat) = 2 * cmpFloat (score ([10, 9] ++ [c])) (score d') ∧
      (isBust ([10, 9] ++ [c]) = true → isBust d' = false → (-2 : Rat) = -2)) := by
  have hrun : step false false rhoNine 2
      { initState with dealer := some [10, 7], player := some [10, 9] }
      = some ((29, 10, false, -1), -2, true, c6FinState) := by
    show stepDouble false false rhoNine
      { initState with dealer := some [10, 7], player := some [10, 9] } = _
    unfold stepDouble
    rw [show drawCard rhoNine { initState with dealer := some [10, 7], player := some [10, 9] }
        = some (10, c6DrawState) from by decide]
    dsimp only [c6DrawState]
    rw [show plusMinusCompliance 10 = some (-1) from rfl]
    dsimp only
    rw [show ([10, 9] ++ [10] : List Nat) = [10, 9, 10] from rfl]
    rw [dealerLoop_of_done (show ¬ sumHand [10, 7] < 17 by decide)]
    dsimp only
    rw [show isNatural [10, 9, 10] = false from by decide,
      show (score [10, 9, 10] : Nat) = 0 from by decide,
      show (score [10, 7] : Nat) = 17 from by decide]
    rw [show getObs (EnvState.mk (some [10, 7]) (some [10, 9, 10]) (0 + -1) false
        (freshDeck.erase 10) [10] 1) = some (29, 10, false, -1) from by decide]
    norm_num [c6FinState, cmpFloat]
  exact ⟨rfl, hrun,
    c6_double_reward rhoNine _ [10, 9] rfl _ _ _ _ hrun⟩

/-! ### Claim C7 -/

/-- C7: with `sab = true`, after `stick`, a player natural against a
non-natural dealer hand forces the reward to exactly 1, overriding the `cmp`
result; if the dealer also holds a natural, no auto-win applies and the reward
falls through to the `cmp` result. -/
theorem c7_sab_autowin (natural : Bool) (ρ : Nat → Nat) (s : EnvState) (p : List Nat)
    (hp : s.player = some p) (obs : Obs) (r : Rat) (dn : Bool) (s' : EnvState)
    (hstep : step natural true ρ 0 s = some (obs, r, dn, s')) (d' : List Nat)
    (hd' : s'.dealer = some d') :
    (isNatural p = true → isNatural d' = false → r = 1) ∧
    (isNatural p = true → isNatural d' = true →
      r = cmpFloat (score p) (score d')) := by
  have h' : stepStick natural true ρ s = some (obs, r, dn, s') := hstep
  obtain ⟨d2, p2, d'', s1, hd2, hp2, hloop, hs', hdn, h17, hr⟩ := stepStick_some h'
  rw [hp] at hp2
  injection hp2 with hpp
  subst hpp
  have hdd : some d'' = some d' := by
    rw [hs'] at hd'
    exact hd'
  injection hdd with hdd
  subst hdd
  constructor
  · intro hn hd2n
    rw [hr, hn, hd2n]
    norm_num
  · intro hn hd2n
    rw [hr, hn, hd2n]
    norm_num

/-- Witness for C7: two naturals face each other under `sab = true`; no
auto-win applies and the reward is the `cmp` result, a push worth 0. -/
theorem c7_witness :
    ({ initState with dealer := some [1, 10], player := some [1, 10] } : EnvState).player
      = some [1, 10] ∧
    step false true rhoZero 0 { initState with dealer := some [1, 10], player := some [1, 10] }
      = some ((21, 1, true, 0), 0, true,
          { initState with dealer := some [1, 10], player := some [1, 10] }) ∧
    ({ initState with dealer := some [1, 10], player := some [1, 10] } : EnvState).dealer
      = some [1, 10] ∧
    (isNatural [1, 10] = true → isNatural [1, 10] = false → (0 : Rat) = 1) ∧
    (isNatural [1, 10] = true → isNatural [1, 10] = true →
      (0 : Rat) = cmpFloat (score [1, 10]) (score [1, 10])) := by
  have hrun : step false true rhoZero 0
      { initState with dealer := some [1, 10], player := some [1, 10] }
      = some ((21, 1, true, 0), 0, true,
          { initState with dealer := some [1, 10], player := some [1, 10] }) := by
    show stepStick false true rhoZero
      { initState with dealer := some [1, 10], player := some [1, 10] } = _
    unfold stepStick
    dsimp only
    rw [dealerLoop_of_done (show ¬ sumHand [1, 10] < 17 by decide)]
    dsimp only
    rw [show isNatural [1, 10] = true from by decide,
      show (score [1, 10] : Nat) = 21 from by decide]
    norm_num [getObs, sumHand, usableAce, cmpFloat, initState]
  have hcc := c7_sab_autowin false rhoZero _ [1, 10] rfl _ _ _ _ hrun [1, 10] rfl
  exact ⟨rfl, hrun, rfl, hcc.1, hcc.2⟩

/-! ### Claim C9 -/

/-- C9: for every setting of the `natural` and `sab` flags, in any state whose
player hand already has at least two cards (as every hand dealt by `reset`
does), the reward of `double` is exactly `2 × cmp(score(player), score(dealer))`:
the forced extra card gives the player at least three cards, a hand of three or
more cards is never a natural, so neither the sab auto-win branch nor the 1.5
natural-bonus branch can fire after a double. -/
theorem c9_double_always_cmp (natural sab : Bool) (ρ : Nat → Nat) (s : EnvState)
    (p : List Nat) (hp : s.player = some p) (hlen : 2 ≤ p.length)
    (obs : Obs) (r : Rat) (dn : Bool) (s' : EnvState)
    (hstep : step natural sab ρ 2 s = some (obs, r, dn, s')) :
    ∃ c d', s'.player = some (p ++ [c]) ∧ s'.dealer = some d' ∧
      3 ≤ (p ++ [c]).length ∧ isNatural (p ++ [c]) = false ∧
      r = 2 * cmpFloat (score (p ++ [c])) (score d') := by
  have h' : stepDouble natural sab ρ s = some (obs, r, dn, s') := hstep
  obtain ⟨card, w, p2, d, d', s1, s4, hdraw, hpc, hp2, hd, hloop, hs', hpl', hde', hdn, h17, hr⟩ :=
    stepDouble_some h'
  rw [hp] at hp2
  injection hp2 with hpp
  subst hpp
  have hnat : isNatural (p ++ [card]) = false := isNatural_append_false hlen
  refine ⟨card, d', hpl', hde', ?_, hnat, ?_⟩
  · rw [List.length_append]
    simp
    omega
  · rw [hr, hnat]
    simp only [Bool.and_false, Bool.false_and, Bool.false_eq_true, if_false]

/-- Witness for C9: doubling a natural `[1, 10]` against dealer 17 under
`sab = true` and `natural = true` draws an ace; the three-card hand is no
longer a natural, no auto-win fires, and the reward is 2 × cmp(12, 17) = −2. -/
theorem c9_witness :
    ({ initState with dealer := some [10, 7], player := some [1, 10] } : EnvState).player
      = some [1, 10] ∧
    2 ≤ ([1, 10] : List Nat).length ∧
    step true true rhoZero 2 { initState with dealer := some [10, 7], player := some [1, 10] }
      = some ((12, 10, false, -1), -2, true, c9FinState) ∧
    (∃ c d', c9FinState.player = some ([1, 10] ++ [c]) ∧ c9FinState.dealer = some d' ∧
      3 ≤ (([1, 10] : List Nat) ++ [c]).length ∧ isNatural ([1, 10] ++ [c]) = false ∧
      (-2 : Rat) = 2 * cmpFloat (score ([1, 10] ++ [c])) (score d')) := by
  have hrun : step true true rhoZero 2
      { initState with dealer := some [10, 7], player := some [1, 10] }
      = some ((12, 10, false, -1), -2, true, c9FinState) := by
    show stepDouble true true rhoZero
      { initState with dealer := some [10, 7], player := some [1, 10] } = _
    unfold stepDouble
    rw [show drawCard rhoZero { initState with dealer := some [10, 7], player := some [1, 10] }
        = some (1, c9DrawState) from by decide]
    dsimp only [c9DrawState]
    rw [show plusMinusCompliance 1 = some (-1) from rfl]
    dsimp only
    rw [show ([1, 10] ++ [1] : List Nat) = [1, 10, 1] from rfl]
    rw [dealerLoop_of_done (show ¬ sumHand [10, 7] < 17 by decide)]
    dsimp only
    rw [show isNatural [1, 10, 1] = false from by decide,
      show (score [1, 10, 1] : Nat) = 12 from by decide,
      show (score [10, 7] : Nat) = 17 from by decide]
    rw [show getObs (EnvState.mk (some [10, 7]) (some [1, 10, 1]) (0 + -1) false
        (freshDeck.erase 1) [1] 1) = some (12, 10, false, -1) from by decide]
    norm_num [c9FinState, cmpFloat]
  exact ⟨rfl, by decide, hrun,
    c9_double_always_cmp true true rhoZero _ [1, 10] rfl (by decide) _ _ _ _ hrun⟩
